import Mathlib

/-!
A verification development for the `trace_id` crate: identifier generation
(`TraceId::new`), validation (`TraceId::from_string_validated`), the trusted
constructor (`TraceId::from_string_unchecked`), the machine identity
(`MACHINE_ID`), the axum header fast path (`is_valid_trace_id_fast`,
`extract_or_generate_trace_id`), and the task-local context scope
(`with_trace_id` / `get_trace_id`).

Rust strings are handled by the crate at the byte level (`id.len()`,
`id.as_bytes()`), so strings are modelled as lists of byte values (`Nat`).
-/

namespace TraceIdSpec

/-- The 32-byte string of ASCII zeros `"00000000000000000000000000000000"`
(byte value 48 is the character `0`). -/
def zeros32 : List Nat := List.replicate 32 48

/-- `TraceId` from src/trace_id.rs: a wrapper around the identifier string,
modelled as the list of its bytes. -/
structure TraceId where
  text : List Nat
deriving DecidableEq

/-- `TraceId::as_str`: returns the inner string unchanged. -/
def TraceId.as_str (t : TraceId) : List Nat := t.text

/-- The per-byte test of `TraceId::is_valid_hex_bytes`:
`matches!(b, b'0'..=b'9' | b'a'..=b'f')`. -/
def is_valid_hex_byte (b : Nat) : Bool :=
  decide ((48 ≤ b ∧ b ≤ 57) ∨ (97 ≤ b ∧ b ≤ 102))

/-- `TraceId::is_valid_hex_bytes`: every byte is an ASCII lower-case hex digit. -/
def is_valid_hex_bytes (bytes : List Nat) : Bool :=
  bytes.all is_valid_hex_byte

/-- `TraceId::from_string_validated`: length must be 32, every byte a
lower-case hex digit, and the text must not be the all-zero string;
on success wraps the input text unchanged. -/
def TraceId.from_string_validated (id : List Nat) : Option TraceId :=
  if id.length ≠ 32 then none
  else if !is_valid_hex_bytes id then none
  else if id = zeros32 then none
  else some ⟨id⟩

/-- `TraceId::from_string_unchecked`: wraps the input with no checks. -/
def TraceId.from_string_unchecked (id : List Nat) : TraceId := ⟨id⟩

/-- One lower-case hex digit byte, as produced by the `{:x}` formatter:
`0..=9` map to bytes 48..=57 (`'0'..'9'`), `10..=15` to 97..=102 (`'a'..'f'`). -/
def toHexByte (d : Nat) : Nat := if d < 10 then 48 + d else 87 + d

/-- The 16 hex digits of the `{:016x}` rendering of a 64-bit word:
zero-padded, most significant digit first. -/
def natToHex16 (n : Nat) : List Nat :=
  (List.range 16).map fun i => toHexByte (n / 16 ^ (15 - i) % 16)

/-- `MACHINE_ID` initializer from src/trace_id.rs:
`((pid ^ timestamp) & 0xFFFF) as u16`, where `pid` is the `u32` process id
and `timestamp` the boot time in seconds cast to `u32`. -/
def machine_id (pid secs : Nat) : Nat :=
  (Nat.xor (pid % 2 ^ 32) (secs % 2 ^ 32)) &&& 0xFFFF

/-- `TraceId::get_machine_id` reading the `LazyLock` cell, modelled with the
cell state passed explicitly: the first read computes and stores the value,
later reads return the stored value untouched. -/
def get_machine_id (cell : Option Nat) (pid secs : Nat) : Nat × Option Nat :=
  match cell with
  | some v => (v, some v)
  | none => (machine_id pid secs, some (machine_id pid secs))

/-- `COUNTER.fetch_add(1, Ordering::Relaxed)` on the `AtomicU64`: returns the
current 64-bit value and stores its successor, wrapping at `2 ^ 64`. -/
def counter_fetch_add (c : Nat) : Nat × Nat :=
  (c % 2 ^ 64, (c % 2 ^ 64 + 1) % 2 ^ 64)

/-- `TraceId::new` from src/trace_id.rs, with its environment reads as
parameters: `millis` the wall clock in milliseconds (0 when the clock read
fails), `ctr` the value fetched from `COUNTER`, `rnd` the `fastrand::u32`
draw, `mid` the machine id.  The `% 2 ^ w` at the top model the `u64`, `u64`,
`u32` and `u16` types of the corresponding Rust values. -/
def TraceId.new (millis ctr rnd mid : Nat) : TraceId :=
  let timestamp := millis % 2 ^ 64
  let counter := ctr % 2 ^ 64
  let machine := mid % 2 ^ 16
  let random_part := rnd % 2 ^ 32
  let high_64 := ((timestamp &&& 0xFFFFFFFFFFFF) <<< 16) ||| machine
  let low_64 := ((counter &&& 0xFFFFFFFF) <<< 32) ||| random_part
  ⟨natToHex16 high_64 ++ natToHex16 low_64⟩

/-- One full generation call: fetch-and-increment the shared counter, then
build the identifier from the fetched value. -/
def generate (st : Nat) (millis rnd mid : Nat) : TraceId × Nat :=
  let (c, st') := counter_fetch_add st
  (TraceId.new millis c rnd mid, st')

/-- `get_trace_id` from src/context.rs, with the task-local binding stack and
the generator inputs passed explicitly.  Returns the identifier together with
a flag recording whether the missing-context warning was logged. -/
def get_trace_id (env : List TraceId) (millis ctr rnd mid : Nat) :
    TraceId × Bool :=
  match env with
  | t :: _ => (t, false)
  | [] => (TraceId.new millis ctr rnd mid, true)

/-- `u8::is_ascii_hexdigit`: `0-9`, `A-F` or `a-f`. -/
def is_ascii_hexdigit (b : Nat) : Bool :=
  decide ((48 ≤ b ∧ b ≤ 57) ∨ (65 ≤ b ∧ b ≤ 70) ∨ (97 ≤ b ∧ b ≤ 102))

/-- `u8::is_ascii_uppercase`: `A-Z`. -/
def is_ascii_uppercase (b : Nat) : Bool :=
  decide (65 ≤ b ∧ b ≤ 90)

/-- `is_valid_trace_id_fast` from src/integrations/axum.rs:
`id.len() == 32 && id.bytes().all(|b| b.is_ascii_hexdigit() && !b.is_ascii_uppercase())`. -/
def is_valid_trace_id_fast (id : List Nat) : Bool :=
  id.length == 32 && id.all fun b => is_ascii_hexdigit b && !is_ascii_uppercase b

/-- The generation block at the end of `extract_or_generate_trace_id`:
run the custom generator if configured and validate its output, otherwise
(or on invalid output) fall back to `TraceId::new`; the fresh identifier
produced by that fallback is passed in as `fresh`. -/
def fallback_generate (generator : Option (List Nat)) (fresh : TraceId) : TraceId :=
  match generator with
  | some g => (TraceId.from_string_validated g).getD fresh
  | none => fresh

/-- `extract_or_generate_trace_id` from src/integrations/axum.rs.  `header`
is the `x-trace-id` header value when present and decodable as a string:
if the fast check passes the value is wrapped unchecked, otherwise full
validation is attempted, otherwise a new identifier is generated. -/
def extract_or_generate_trace_id (header : Option (List Nat))
    (generator : Option (List Nat)) (fresh : TraceId) : TraceId :=
  match header with
  | some id_str =>
    if is_valid_trace_id_fast id_str then TraceId.from_string_unchecked id_str
    else
      match TraceId.from_string_validated id_str with
      | some t => t
      | none => fallback_generate generator fresh
  | none => fallback_generate generator fresh

/-!
## Context scope semantics

`with_trace_id(id, body)` is `CURRENT_TRACE_ID.scope(id, body).await`: the
tokio task local holds `id` for exactly the dynamic extent of `body` and the
enclosing binding is what every action after the scope sees, on every exit
path.  A body is a sequence of actions: observing the current identifier
(`get_trace_id`) or entering a nested scope.  The binding stack is passed
down into a scope's body and the unchanged outer stack is used for the
continuation, which is precisely how `scope` restores the previous binding.
A supply `fresh : Nat → TraceId` provides the identifiers that
`get_trace_id` generates when the stack is empty.
-/

/-- An action inside an async body: `current` observes `get_trace_id()`,
`scope id body` is `with_trace_id(id, body)`. -/
inductive Act where
  | current : Act
  | scope : TraceId → List Act → Act

mutual

/-- Run one action: the observations it makes and the next fresh index. -/
def runAct (fresh : Nat → TraceId) (env : List TraceId) (k : Nat) :
    Act → List TraceId × Nat
  | Act.current =>
    match env with
    | [] => ([fresh k], k + 1)
    | t :: _ => ([t], k)
  | Act.scope id body => runActs fresh (id :: env) k body

/-- Run a sequence of actions under binding stack `env`. -/
def runActs (fresh : Nat → TraceId) (env : List TraceId) (k : Nat) :
    List Act → List TraceId × Nat
  | [] => ([], k)
  | a :: rest =>
    let (o1, k1) := runAct fresh env k a
    let (o2, k2) := runActs fresh env k1 rest
    (o1 ++ o2, k2)

end

/-!
## Interleaved multi-task machine

For the concurrency claim the same scope semantics is given as a small-step
machine: each logical task owns its binding stack (tokio task-local storage
is keyed by task, not by worker thread), and a schedule interleaves single
steps of the tasks arbitrarily — modelling suspension points and resumption
on any worker.
-/

/-- One instruction of a task's compiled body. -/
inductive Instr where
  | icurrent : Instr
  | isuspend : Instr
  | ienter : TraceId → Instr
  | iexit : Instr

/-- A logical task: its private binding stack, the observations made so far,
its private fresh-identifier index, and the remaining program. -/
structure Task where
  env : List TraceId
  obs : List TraceId
  fidx : Nat
  prog : List Instr

/-- The task used for out-of-range schedule indices; it has no program and
is never changed by a step. -/
def idleTask : Task := ⟨[], [], 0, []⟩

/-- One step of a single task; a finished task is unchanged. -/
def stepTask (fresh : Nat → TraceId) (t : Task) : Task :=
  match t.prog with
  | [] => t
  | Instr.icurrent :: rest =>
    match t.env with
    | [] => { t with obs := t.obs ++ [fresh t.fidx], fidx := t.fidx + 1, prog := rest }
    | x :: _ => { t with obs := t.obs ++ [x], prog := rest }
  | Instr.isuspend :: rest => { t with prog := rest }
  | Instr.ienter id :: rest => { t with env := id :: t.env, prog := rest }
  | Instr.iexit :: rest => { t with env := t.env.tail, prog := rest }

/-- Run a schedule: each entry names the task that takes the next step. -/
def runSched (fresh : Nat → Nat → TraceId) (tasks : List Task) :
    List Nat → List Task
  | [] => tasks
  | i :: rest =>
    runSched fresh (tasks.set i (stepTask (fresh i) (tasks.getD i idleTask))) rest

/-- `run_with(id, { current(); suspend; current() })` compiled for the
machine: enter the scope, observe, suspend, observe again, exit. -/
def task_prog (id : TraceId) : List Instr :=
  [Instr.ienter id, Instr.icurrent, Instr.isuspend, Instr.icurrent, Instr.iexit]

/-- The initial state of task `k` of the concurrency scenario. -/
def initTask (id : TraceId) : Task := ⟨[], [], 0, task_prog id⟩

/-- `K` tasks, task `k` wrapping its body in `run_with(ids k, …)`. -/
def initTasks (K : Nat) (ids : Nat → TraceId) : List Task :=
  (List.range K).map fun k => initTask (ids k)

/-- The bytes of the spec's valid example `"0af7651916cd43dd8448eb211c80319c"`. -/
def exBytes : List Nat :=
  [48, 97, 102, 55, 54, 53, 49, 57, 49, 54, 99, 100, 52, 51, 100, 100,
   56, 52, 52, 56, 101, 98, 50, 49, 49, 99, 56, 48, 51, 49, 57, 99]

/-- The bytes of the crate's invalid example `"this-is-not-a-valid-id"`. -/
def badBytes : List Nat :=
  [116, 104, 105, 115, 45, 105, 115, 45, 110, 111, 116, 45, 97, 45,
   118, 97, 108, 105, 100, 45, 105, 100]

/-!
## Helper lemmas
-/

theorem shiftLeft_or_eq_add {b : Nat} (a n : Nat) (hb : b < 2 ^ n) :
    (a <<< n) ||| b = a * 2 ^ n + b := by
  rw [Nat.shiftLeft_eq, Nat.mul_comm, ← Nat.mul_add_lt_is_or hb, Nat.mul_comm]

theorem toHexByte_valid {d : Nat} (hd : d < 16) :
    is_valid_hex_byte (toHexByte d) = true := by
  unfold toHexByte is_valid_hex_byte
  split <;> simp <;> omega

theorem toHexByte_eq_zero_byte {d : Nat} (hd : d < 16) :
    toHexByte d = 48 ↔ d = 0 := by
  unfold toHexByte
  split <;> omega

theorem natToHex16_length (n : Nat) : (natToHex16 n).length = 16 := by
  simp [natToHex16]

theorem natToHex16_valid (n : Nat) :
    ∀ b ∈ natToHex16 n, is_valid_hex_byte b = true := by
  intro b hb
  simp only [natToHex16, List.mem_map, List.mem_range] at hb
  obtain ⟨i, _, hi⟩ := hb
  exact hi ▸ toHexByte_valid (Nat.mod_lt _ (by norm_num))

theorem digits_zero_of_mod_zero {b n : Nat} :
    ∀ m, (∀ i, i < m → n / b ^ i % b = 0) → n % b ^ m = 0 := by
  intro m
  induction m with
  | zero => simp [Nat.mod_one]
  | succ m ih =>
    intro h
    rw [Nat.mod_pow_succ, ih fun i hi => h i (by omega), h m (by omega)]
    simp

theorem natToHex16_eq_zeros_iff {n : Nat} (hn : n < 2 ^ 64) :
    natToHex16 n = List.replicate 16 48 ↔ n = 0 := by
  constructor
  · intro h
    have hall : ∀ c ∈ natToHex16 n, c = 48 := by
      intro c hc
      exact List.eq_replicate_iff.mp h |>.2 c hc
    have hdig : ∀ j, j < 16 → n / 16 ^ j % 16 = 0 := by
      intro j hj
      have hmem : toHexByte (n / 16 ^ (15 - (15 - j)) % 16) ∈ natToHex16 n := by
        simp only [natToHex16, List.mem_map, List.mem_range]
        exact ⟨15 - j, by omega, rfl⟩
      have h48 := hall _ hmem
      have h15 : 15 - (15 - j) = j := by omega
      rw [h15] at h48
      exact (toHexByte_eq_zero_byte (Nat.mod_lt _ (by norm_num))).mp h48
    have hmod : n % 16 ^ 16 = 0 := digits_zero_of_mod_zero 16 hdig
    have h16 : (16 : Nat) ^ 16 = 2 ^ 64 := by norm_num
    rw [h16, Nat.mod_eq_of_lt hn] at hmod
    exact hmod
  · intro h
    subst h
    decide

theorem new_text_eq (millis ctr rnd mid : Nat) :
    (TraceId.new millis ctr rnd mid).text =
      natToHex16 ((millis % 2 ^ 48) * 2 ^ 16 + mid % 2 ^ 16)
        ++ natToHex16 ((ctr % 2 ^ 32) * 2 ^ 32 + rnd % 2 ^ 32) := by
  show natToHex16 _ ++ natToHex16 _ = _
  have hmask48 : (0xFFFFFFFFFFFF : Nat) = 2 ^ 48 - 1 := by norm_num
  have hmask32 : (0xFFFFFFFF : Nat) = 2 ^ 32 - 1 := by norm_num
  have h48 : millis % 2 ^ 64 &&& 0xFFFFFFFFFFFF = millis % 2 ^ 48 := by
    rw [hmask48, Nat.and_pow_two_sub_one_eq_mod]
    exact Nat.mod_mod_of_dvd millis (by norm_num)
  have h32 : ctr % 2 ^ 64 &&& 0xFFFFFFFF = ctr % 2 ^ 32 := by
    rw [hmask32, Nat.and_pow_two_sub_one_eq_mod]
    exact Nat.mod_mod_of_dvd ctr (by norm_num)
  rw [h48, h32,
    shiftLeft_or_eq_add _ 16 (Nat.mod_lt _ (by norm_num)),
    shiftLeft_or_eq_add _ 32 (Nat.mod_lt _ (by norm_num))]

theorem hex_word_lt (a b m n : Nat) (hb : b < 2 ^ n) (hab : a < 2 ^ m) :
    a * 2 ^ n + b < 2 ^ (m + n) := by
  have h1 : a * 2 ^ n + b < (a + 1) * 2 ^ n := by
    rw [Nat.add_mul, Nat.one_mul]
    omega
  have h2 : (a + 1) * 2 ^ n ≤ 2 ^ m * 2 ^ n := Nat.mul_le_mul_right _ (by omega)
  rw [Nat.pow_add]
  omega

/-!
## Claim theorems
-/

/-- C1: `from_string_validated s` is `none` exactly when the length of `s` is
not 32, or some byte of `s` is outside `[0-9a-f]`, or `s` is the 32-zero
string; otherwise it returns `some` of an identifier whose text is exactly
`s`, unchanged. -/
theorem from_string_validated_spec (s : List Nat) :
    (TraceId.from_string_validated s = none ↔
      s.length ≠ 32 ∨ (∃ b ∈ s, is_valid_hex_byte b = false) ∨ s = zeros32)
    ∧ (∀ t, TraceId.from_string_validated s = some t → t.text = s)
    ∧ (s.length = 32 → (∀ b ∈ s, is_valid_hex_byte b = true) → s ≠ zeros32 →
        TraceId.from_string_validated s = some ⟨s⟩) := by
  refine ⟨?_, ?_, ?_⟩
  · unfold TraceId.from_string_validated
    split_ifs with h1 h2 h3 <;>
      simp_all [is_valid_hex_bytes, List.all_eq_true]
  · intro t h
    unfold TraceId.from_string_validated at h
    split_ifs at h
    exact (Option.some_inj.mp h) ▸ rfl
  · intro h1 h2 h3
    unfold TraceId.from_string_validated
    split_ifs with g1 g2 <;> simp_all [is_valid_hex_bytes, List.all_eq_true]
    obtain ⟨b, hb1, hb2⟩ := g2
    exact absurd (h2 b hb1) (by simp [hb2])

/-- Witness for C1 at the spec's valid example string. -/
theorem from_string_validated_spec_witness :
    TraceId.from_string_validated exBytes = some ⟨exBytes⟩
    ∧ TraceId.text ⟨exBytes⟩ = exBytes :=
  ⟨(from_string_validated_spec exBytes).2.2 (by decide) (by decide) (by decide),
   (from_string_validated_spec exBytes).2.1 ⟨exBytes⟩
     ((from_string_validated_spec exBytes).2.2 (by decide) (by decide) (by decide))⟩

/-- C6: with no binding active, `get_trace_id` never fails: it logs the
warning and returns a freshly generated identifier, delegating to
`TraceId::new`; with a binding active it returns the binding and logs
nothing. -/
theorem get_trace_id_missing_context (millis ctr rnd mid : Nat)
    (t : TraceId) (env : List TraceId) :
    get_trace_id [] millis ctr rnd mid = (TraceId.new millis ctr rnd mid, true)
    ∧ get_trace_id (t :: env) millis ctr rnd mid = (t, false) :=
  ⟨rfl, rfl⟩

/-- C8: the machine identity is a 16-bit value equal to the XOR of the
process id and the start time in seconds, masked to 16 bits; the lazy cell
computes it on first use and every later read returns the stored value
unchanged, whatever inputs the later reads see. -/
theorem machine_id_spec (pid secs pid2 secs2 : Nat) :
    machine_id pid secs < 2 ^ 16
    ∧ machine_id pid secs = Nat.xor (pid % 2 ^ 32) (secs % 2 ^ 32) % 2 ^ 16
    ∧ (get_machine_id none pid secs).1 = machine_id pid secs
    ∧ (get_machine_id (get_machine_id none pid secs).2 pid2 secs2).1
        = machine_id pid secs
    ∧ (get_machine_id (get_machine_id none pid secs).2 pid2 secs2).2
        = (get_machine_id none pid secs).2 := by
  have hmask : (0xFFFF : Nat) = 2 ^ 16 - 1 := by norm_num
  have heq : machine_id pid secs
      = Nat.xor (pid % 2 ^ 32) (secs % 2 ^ 32) % 2 ^ 16 := by
    unfold machine_id
    rw [hmask, Nat.and_pow_two_sub_one_eq_mod]
  exact ⟨heq ▸ Nat.mod_lt _ (by norm_num), heq, rfl, rfl, rfl⟩

/-- C9: `from_string_unchecked` performs none of the three validation
checks: for every string, including ones full validation rejects, it
succeeds and the resulting identifier's text is exactly the input. -/
theorem from_string_unchecked_spec (s : List Nat) :
    (TraceId.from_string_unchecked s).as_str = s
    ∧ TraceId.from_string_validated badBytes = none
    ∧ (TraceId.from_string_unchecked badBytes).as_str = badBytes :=
  ⟨rfl, by decide, rfl⟩

/-- C3 counterexample: the claim that a generated identifier is never 32
zero characters fails on the code.  With the clock read failing (zero
duration substituted, so `millis = 0` and boot seconds 0 is likewise
possible), the first generation call (`counter = 0`), a machine tag of zero
(process id 1234 with boot seconds 1234 gives `machine_id = 0`), and a zero
random draw, `TraceId::new` renders the all-zero string, which full
validation itself rejects. -/
theorem new_all_zero_counterexample :
    (TraceId.new 0 0 0 (machine_id 1234 1234)).text = zeros32
    ∧ TraceId.from_string_validated
        (TraceId.new 0 0 0 (machine_id 1234 1234)).text = none := by
  constructor <;> decide

/-- C3 (amended): every identifier returned by `TraceId::new` has text of
length exactly 32 with every character in `[0-9a-f]`, for every timestamp
(including the zero substituted on clock failure), counter value, machine
tag and random draw; the text is the 32-zero string exactly when the
truncated timestamp, the machine tag, the counter's low 32 bits and the
random draw are all zero, and is therefore not all-zero whenever any of
them is nonzero. -/
theorem new_well_formed (millis ctr rnd mid : Nat) :
    (TraceId.new millis ctr rnd mid).text.length = 32
    ∧ (∀ b ∈ (TraceId.new millis ctr rnd mid).text, is_valid_hex_byte b = true)
    ∧ ((TraceId.new millis ctr rnd mid).text = zeros32 ↔
        millis % 2 ^ 48 = 0 ∧ mid % 2 ^ 16 = 0
          ∧ ctr % 2 ^ 32 = 0 ∧ rnd % 2 ^ 32 = 0) := by
  rw [new_text_eq]
  refine ⟨by simp [natToHex16_length], ?_, ?_⟩
  · intro b hb
    rcases List.mem_append.mp hb with h | h
    · exact natToHex16_valid _ b h
    · exact natToHex16_valid _ b h
  · have hhi : (millis % 2 ^ 48) * 2 ^ 16 + mid % 2 ^ 16 < 2 ^ 64 := by
      have := hex_word_lt (millis % 2 ^ 48) (mid % 2 ^ 16) 48 16
        (Nat.mod_lt _ (by norm_num)) (Nat.mod_lt _ (by norm_num))
      simpa using this
    have hlo : (ctr % 2 ^ 32) * 2 ^ 32 + rnd % 2 ^ 32 < 2 ^ 64 := by
      have := hex_word_lt (ctr % 2 ^ 32) (rnd % 2 ^ 32) 32 32
        (Nat.mod_lt _ (by norm_num)) (Nat.mod_lt _ (by norm_num))
      simpa using this
    have hz : zeros32 = List.replicate 16 48 ++ List.replicate 16 48 := by decide
    rw [hz]
    constructor
    · intro h
      have hparts := List.append_inj h (by simp [natToHex16_length])
      have h1 := (natToHex16_eq_zeros_iff hhi).mp hparts.1
      have h2 := (natToHex16_eq_zeros_iff hlo).mp hparts.2
      norm_num at h1 h2 ⊢
      omega
    · rintro ⟨h1, h2, h3, h4⟩
      rw [h1, h2, h3, h4]
      decide

/-- Witness for the amended C3 at concrete generation inputs: the byte of
the character `0` is in the hex alphabet, found at the head of the rendered
text of a concrete generated identifier. -/
theorem new_well_formed_witness :
    (TraceId.new 1699999999999 5 3735928559 4660).text.length = 32
    ∧ is_valid_hex_byte 48 = true :=
  ⟨(new_well_formed 1699999999999 5 3735928559 4660).1,
   (new_well_formed 1699999999999 5 3735928559 4660).2.1 48 (by decide)⟩

/-- C4: the generated identifier is composed exactly as
high word `= (timestamp mod 2^48) · 2^16 + machine tag`, low word
`= (counter mod 2^32) · 2^32 + random`, each rendered as 16 lowercase hex
digits and concatenated to 32 characters; one generation call
fetch-and-increments the 64-bit counter by exactly one, wrapping silently
at `2^64`, and only the counter's low 32 bits influence the identifier. -/
theorem generate_compose (millis ctr rnd mid st : Nat) :
    (TraceId.new millis ctr rnd mid).text =
      natToHex16 ((millis % 2 ^ 48) * 2 ^ 16 + mid % 2 ^ 16)
        ++ natToHex16 ((ctr % 2 ^ 32) * 2 ^ 32 + rnd % 2 ^ 32)
    ∧ (TraceId.new millis ctr rnd mid).text.length = 32
    ∧ counter_fetch_add st = (st % 2 ^ 64, (st + 1) % 2 ^ 64)
    ∧ generate st millis rnd mid
        = (TraceId.new millis st rnd mid, (st + 1) % 2 ^ 64)
    ∧ TraceId.new millis ctr rnd mid = TraceId.new millis (ctr % 2 ^ 32) rnd mid := by
  have hsucc : (st % 2 ^ 64 + 1) % 2 ^ 64 = (st + 1) % 2 ^ 64 := by
    conv_rhs => rw [Nat.add_mod]
    norm_num
  have hlow : ∀ c : Nat, c % 2 ^ 64 &&& 0xFFFFFFFF = c % 2 ^ 32 := by
    intro c
    have hmask32 : (0xFFFFFFFF : Nat) = 2 ^ 32 - 1 := by norm_num
    rw [hmask32, Nat.and_pow_two_sub_one_eq_mod]
    exact Nat.mod_mod_of_dvd c (by norm_num)
  have hctr : ∀ c : Nat, TraceId.new millis c rnd mid
      = TraceId.new millis (c % 2 ^ 32) rnd mid := by
    intro c
    simp only [TraceId.new]
    rw [hlow c, hlow (c % 2 ^ 32), Nat.mod_mod_of_dvd c (dvd_refl _)]
  refine ⟨new_text_eq millis ctr rnd mid, ?_, ?_, ?_, hctr ctr⟩
  · rw [new_text_eq]
    simp [natToHex16_length]
  · unfold counter_fetch_add
    rw [hsucc]
  · show (TraceId.new millis (st % 2 ^ 64) rnd mid, (st % 2 ^ 64 + 1) % 2 ^ 64)
        = (TraceId.new millis st rnd mid, (st + 1) % 2 ^ 64)
    rw [hsucc, hctr (st % 2 ^ 64), Nat.mod_mod_of_dvd st (by norm_num), ← hctr st]

theorem runActs_nil (fresh : Nat → TraceId) (env : List TraceId) (k : Nat) :
    runActs fresh env k [] = ([], k) := by
  simp [runActs]

theorem runActs_cons (fresh : Nat → TraceId) (env : List TraceId) (k : Nat)
    (a : Act) (rest : List Act) :
    runActs fresh env k (a :: rest) =
      ((runAct fresh env k a).1 ++ (runActs fresh env (runAct fresh env k a).2 rest).1,
        (runActs fresh env (runAct fresh env k a).2 rest).2) := by
  simp [runActs]

theorem runActs_append (fresh : Nat → TraceId) (env : List TraceId) (k : Nat)
    (l1 l2 : List Act) :
    runActs fresh env k (l1 ++ l2) =
      ((runActs fresh env k l1).1
          ++ (runActs fresh env (runActs fresh env k l1).2 l2).1,
        (runActs fresh env (runActs fresh env k l1).2 l2).2) := by
  induction l1 generalizing k with
  | nil => simp [runActs_nil]
  | cons a rest ih =>
    rw [List.cons_append, runActs_cons, runActs_cons, ih]
    simp

theorem runAct_current_bound (fresh : Nat → TraceId) (A : TraceId)
    (env : List TraceId) (k : Nat) :
    runAct fresh (A :: env) k Act.current = ([A], k) := by
  simp [runAct]

/-- C2: inside `with_trace_id(A, body)` every top-level `get_trace_id` call
in `body` observes `A`; the action after the scope runs under the enclosing
binding again — it observes the enclosing binding when the scope was nested,
and a freshly generated identifier (hence one differing from `A` whenever
the fresh supply avoids `A`) when it was not.  Restoration is structural:
the scope's continuation always receives the unchanged outer stack. -/
theorem with_trace_id_scoping (A : TraceId) (env : List TraceId)
    (fresh : Nat → TraceId) (k : Nat) (pre post body : List Act) :
    (runActs fresh (A :: env) k (pre ++ Act.current :: post)).1
      = (runActs fresh (A :: env) k pre).1
        ++ A :: (runActs fresh (A :: env) (runActs fresh (A :: env) k pre).2 post).1
    ∧ (∀ B env2, env = B :: env2 →
        (runActs fresh env k [Act.scope A body, Act.current]).1
          = (runActs fresh (A :: env) k body).1 ++ [B])
    ∧ (env = [] →
        (runActs fresh env k [Act.scope A body, Act.current]).1
          = (runActs fresh (A :: env) k body).1
            ++ [fresh (runActs fresh (A :: env) k body).2]
        ∧ ((∀ n, fresh n ≠ A) →
            fresh (runActs fresh (A :: env) k body).2 ≠ A)) := by
  refine ⟨?_, ?_, ?_⟩
  · rw [runActs_append, runActs_cons, runAct_current_bound]
    simp
  · intro B env2 henv
    subst henv
    rw [runActs_cons, runActs_cons, runActs_nil]
    simp [runAct, runAct_current_bound]
  · intro henv
    subst henv
    constructor
    · rw [runActs_cons, runActs_cons, runActs_nil]
      simp [runAct]
    · intro hfresh
      exact hfresh _

/-- Witness for C2: applied once in an unbound enclosing context and once
nested under an enclosing binding, with concrete identifiers. -/
theorem with_trace_id_scoping_witness :
    ((runActs (fun _ => TraceId.mk [98]) [] 0
        [Act.scope ⟨[97]⟩ [Act.current], Act.current]).1
      = [⟨[97]⟩, ⟨[98]⟩]
      ∧ (fun _ => TraceId.mk [98]) (runActs (fun _ => TraceId.mk [98])
          [⟨[97]⟩] 0 [Act.current]).2 ≠ ⟨[97]⟩)
    ∧ (runActs (fun _ => TraceId.mk [98]) [⟨[99]⟩] 0
        [Act.scope ⟨[97]⟩ [Act.current], Act.current]).1
      = [⟨[97]⟩, ⟨[99]⟩] := by
  have h1 := with_trace_id_scoping ⟨[97]⟩ [] (fun _ => TraceId.mk [98]) 0
    [] [] [Act.current]
  have h2 := with_trace_id_scoping ⟨[97]⟩ [⟨[99]⟩] (fun _ => TraceId.mk [98]) 0
    [] [] [Act.current]
  have e1 := (h1.2.2 rfl).1
  have e2 := (h1.2.2 rfl).2 (by intro n; decide)
  have e3 := h2.2.1 ⟨[99]⟩ [] rfl
  refine ⟨⟨?_, e2⟩, ?_⟩
  · rw [e1]
    decide
  · rw [e3]
    decide

/-- C5: under any enclosing stack, `run_with(A, run_with(B, current());
current())` observes `B` inside the inner scope and `A` immediately after
the inner scope exits, before the outer scope exits. -/
theorem nested_scope_observation (A B : TraceId) (env : List TraceId)
    (fresh : Nat → TraceId) (k : Nat) :
    runActs fresh env k
        [Act.scope A [Act.scope B [Act.current], Act.current]] = ([B, A], k) := by
  simp [runActs_cons, runActs_nil, runAct, runAct_current_bound]

theorem fast_byte_eq (b : Nat) :
    (is_ascii_hexdigit b && !is_ascii_uppercase b) = is_valid_hex_byte b := by
  simp only [is_ascii_hexdigit, is_ascii_uppercase, is_valid_hex_byte]
  rw [Bool.eq_iff_iff]
  simp only [Bool.and_eq_true, Bool.not_eq_eq_eq_not, Bool.not_true,
    decide_eq_true_eq, decide_eq_false_iff_not]
  omega

/-- C7: the fast structural pre-check accepts the 32-zero string, so
`extract_or_generate_trace_id` given an inbound header of 32 zeros returns,
via `from_string_unchecked`, an identifier whose text is all-zero — one that
full validation rejects; on every string other than the 32-zero string the
fast check accepts exactly the strings full validation accepts. -/
theorem fast_gate_vs_validate (s : List Nat) (gen : Option (List Nat))
    (fr : TraceId) :
    is_valid_trace_id_fast zeros32 = true
    ∧ extract_or_generate_trace_id (some zeros32) gen fr
        = TraceId.from_string_unchecked zeros32
    ∧ (TraceId.from_string_unchecked zeros32).as_str = zeros32
    ∧ TraceId.from_string_validated zeros32 = none
    ∧ (s ≠ zeros32 →
        (is_valid_trace_id_fast s = true
          ↔ (TraceId.from_string_validated s).isSome = true)) := by
  refine ⟨by decide, ?_, by decide, by decide, ?_⟩
  · simp only [extract_or_generate_trace_id]
    rw [if_pos (by decide)]
  · intro hs
    unfold is_valid_trace_id_fast TraceId.from_string_validated
    simp only [List.all_eq_true, fast_byte_eq, Bool.and_eq_true, beq_iff_eq]
    split_ifs with h1 h2 <;>
      simp_all [is_valid_hex_bytes, List.all_eq_true]

/-- Witness for C7 at the spec's valid example string. -/
theorem fast_gate_vs_validate_witness :
    is_valid_trace_id_fast exBytes = true
      ↔ (TraceId.from_string_validated exBytes).isSome = true :=
  (fast_gate_vs_validate exBytes none ⟨[]⟩).2.2.2.2 (by decide)

theorem stepTask_done (fresh : Nat → TraceId) (t : Task) (h : t.prog = []) :
    stepTask fresh t = t := by
  unfold stepTask
  rw [h]

theorem runSched_isolation (fresh : Nat → Nat → TraceId) (tasks : List Task)
    (sched : List Nat) (k : Nat) :
    (runSched fresh tasks sched).getD k idleTask
      = (stepTask (fresh k))^[sched.count k] (tasks.getD k idleTask) := by
  induction sched generalizing tasks with
  | nil => simp [runSched]
  | cons i rest ih =>
    rw [runSched, ih]
    by_cases hik : i = k
    · subst hik
      rw [List.count_cons_self, Function.iterate_succ_apply]
      congr 1
      by_cases hk : i < tasks.length
      · simp [List.getD_eq_getElem?_getD, List.getElem?_set_self hk,
          List.getElem?_eq_getElem hk]
      · rw [List.set_eq_of_length_le (by omega)]
        have hnone : tasks.getD i idleTask = idleTask := by
          simp [List.getD_eq_getElem?_getD,
            List.getElem?_eq_none (Nat.le_of_not_lt hk)]
        rw [hnone, stepTask_done _ _ rfl]
    · rw [List.count_cons_of_ne (by omega)]
      congr 1
      simp [List.getD_eq_getElem?_getD, List.getElem?_set_ne hik]

theorem iterate_five_task (fresh : Nat → TraceId) (id : TraceId) :
    (stepTask fresh)^[5] (initTask id) = ⟨[], [id, id], 0, []⟩ := by
  show stepTask fresh (stepTask fresh (stepTask fresh (stepTask fresh
    (stepTask fresh (initTask id))))) = _
  rfl

/-- C10: for `K` concurrently scheduled tasks, task `k` wrapping its body in
`run_with(ids k, …)` with a suspension point between two `current()` reads,
any interleaving whatsoever (hence any assignment of resumptions to worker
threads) that gives task `k` enough steps leaves task `k` having observed
exactly `ids k` both before and after its suspension, with its binding stack
restored; sibling tasks' scopes never leak into it because a step of the
machine touches only the stack of the task it schedules. -/
theorem concurrent_isolation (K : Nat) (ids : Nat → TraceId)
    (fresh : Nat → Nat → TraceId) (sched : List Nat) (k : Nat)
    (hk : k < K) (hs : 5 ≤ sched.count k) :
    ((runSched fresh (initTasks K ids) sched).getD k idleTask).obs
        = [ids k, ids k]
    ∧ ((runSched fresh (initTasks K ids) sched).getD k idleTask).env = [] := by
  rw [runSched_isolation]
  have hinit : (initTasks K ids).getD k idleTask = initTask (ids k) := by
    simp [initTasks, List.getD_eq_getElem?_getD, List.getElem?_map,
      List.getElem?_range hk]
  rw [hinit]
  obtain ⟨m, hm⟩ := Nat.exists_eq_add_of_le hs
  rw [hm, Nat.add_comm, Function.iterate_add_apply, iterate_five_task,
    Function.iterate_fixed (stepTask_done _ _ rfl) m]
  exact ⟨rfl, rfl⟩

/-- Witness for C10: two tasks stepped in a strict round-robin interleaving;
task 0 observes its own identifier twice. -/
theorem concurrent_isolation_witness :
    ((runSched (fun _ _ => TraceId.mk [99])
        (initTasks 2 fun n => TraceId.mk [n])
        [0, 1, 0, 1, 0, 1, 0, 1, 0, 1]).getD 0 idleTask).obs
      = [TraceId.mk [0], TraceId.mk [0]] :=
  (concurrent_isolation 2 (fun n => TraceId.mk [n]) (fun _ _ => TraceId.mk [99])
    [0, 1, 0, 1, 0, 1, 0, 1, 0, 1] 0 (by decide) (by decide)).1

end TraceIdSpec
